import Mathlib

/-!
Verification of the webexbot session router and its conversational
primitives (dialog controller, messenger, dialog task provider).

The Go source is embedded shallowly:
* pure functions are translated into Lean functions with the source names;
* Go `error` values become `Option GoError` (or `Except GoError α` for
  functions returning `(value, error)` pairs), where `GoError` keeps the
  `fmt.Errorf("... : %w", err)` wrapping structure;
* the Webex REST client (`webexapi.Client.CreateMessage`) is an external
  collaborator and is passed in as a function argument, with the requests
  made recorded so that "no network effect" is provable;
* channel- and context-driven control flow (`select` loops) is driven by an
  explicit schedule of select outcomes, one entry per loop iteration;
* the concurrent controller/worker interaction needed for the stale
  completion-signal analysis is a labelled transition system whose steps
  mirror the statements of `dialog_controller.go`.
-/

namespace Webexbot

/-- Go `error` values: either a fresh error (`errors.New` / `fmt.Errorf`
without `%w`) or a wrapping error produced by `fmt.Errorf("msg : %w", inner)`.
`contextCanceled` models `context.Canceled` as returned by `ctx.Err()`. -/
inductive GoError where
  | mk (msg : String)
  | wrap (msg : String) (inner : GoError)
  | contextCanceled
deriving DecidableEq, Repr

/-- Resource kinds are strings in the source (`type ResourceKind string`). -/
def AttachmentActions : String := "attachmentActions"

/-- Model of `json.RawMessage` as consumed by `fetchUserChoice`, which
unmarshals it into `struct { Data string }`: either the unmarshal succeeds
and yields the `data` field, or it fails with an error message. -/
inductive RawInputs where
  | decodable (data : String)
  | undecodable (msg : String)
deriving DecidableEq, Repr

/-- Embedding of `webexapi.AttachmentAction` (fields used by the messenger;
the `Created` timestamp is never read by the code under verification, and
the Go field `Type` is spelt `ActionType` here because `Type` is reserved
in Lean). -/
structure AttachmentAction where
  Id : String
  PersonId : String
  RoomId : String
  ActionType : String
  MessageId : String
  Inputs : RawInputs
deriving DecidableEq, Repr

/-- Zero value of `webexapi.AttachmentAction`. -/
def zeroAttachmentAction : AttachmentAction :=
  ⟨"", "", "", "", "", .decodable ""⟩

/-- Go `any` values as they occur in this code: `nil`, a `string`
(listener responses, decoded option ids), or an `AttachmentAction`
(the resource carried by attachment-action events). -/
inductive GoAny where
  | nil
  | str (s : String)
  | attachmentAction (a : AttachmentAction)
deriving DecidableEq, Repr

/-- Embedding of `webexbot.Event`. `Resource` is `any` in Go;
`ResourceKind` and `ResourceEvent` are string types. -/
structure Event where
  InitiatorId : String
  InitiatorEmail : String
  RoomId : String
  Resource : GoAny
  ResourceKind : String
  ResourceEvent : String
deriving DecidableEq, Repr

/-- Go zero value of `Event` (what a receive from a closed channel yields). -/
def zeroEvent : Event := ⟨"", "", "", .nil, "", ""⟩

/-- Embedding of `webexbot.Message`. `Format` is a Go `int`
(`type TextFormat int`); `File` and `AdaptiveCard` are nilable and are
modelled by their presence (their contents are never inspected by the
code under verification beyond being passed through). -/
structure Message where
  Text : String
  Format : Int
  PlainText : String
  File : Option String
  AdaptiveCard : Option String
  ParentId : String
deriving DecidableEq, Repr

/-- Value of `TextFormatMarkdown` (`TextFormat = iota`): 0. -/
def TextFormatMarkdown : Int := 0

/-- Value of `TextFormatHTML`: 1. -/
def TextFormatHTML : Int := 1

/-- Embedding of `webexbot.Option` (an offered choice). Named
`ChoiceOption` because `Option` would shadow the Lean `Option` type
used throughout this file. -/
structure ChoiceOption where
  Id : String
  Label : String
deriving DecidableEq, Repr

/-- Embedding of `webexbot.ChoiceMessage`. Its fields are exactly
`Text`, `Options`, `ParentId` — it has no field named `Message`, which is
what the adaptive-card template tries to evaluate. -/
structure ChoiceMessage where
  Text : String
  Options : List ChoiceOption
  ParentId : String
deriving DecidableEq, Repr

/-- Embedding of `webexapi.Attachment`. -/
structure Attachment where
  ContentType : String
  Content : String
deriving DecidableEq, Repr

/-- Embedding of `webexapi.CreateMessageRequest`. -/
structure CreateMessageRequest where
  RoomId : String
  ParentId : String
  ToPersonId : String
  ToPersonEmail : String
  Text : String
  Markdown : String
  Html : String
  File : Option String
  Attachment : Option Attachment
deriving DecidableEq, Repr

/-- Zero value of `CreateMessageRequest` (returned alongside errors). -/
def zeroCreateMessageRequest : CreateMessageRequest :=
  ⟨"", "", "", "", "", "", "", none, none⟩

/-- The part of `webexapi.Message` the messenger reads back: the id. -/
structure WebexApiMessage where
  Id : String
deriving DecidableEq, Repr

/-- The external Webex client: `CreateMessage` returns
`(*webexapi.Message, *webexapi.WebexError, error)`; the Webex error and
the transport error are both modelled as optional `GoError`s. -/
def WebexClient : Type :=
  CreateMessageRequest → WebexApiMessage × Option GoError × Option GoError

/-- Embedding of `messenger` (its identity fields; the inbound channel is
replaced by an explicit schedule argument where needed). -/
structure Messenger where
  personId : String
  roomId : String
  initialEvent : Event
  webexClient : WebexClient

/-- Embedding of `messenger.newMessageCreationRequest`: builds the request,
selecting `Markdown` or `Html` from the format switch, and rejects any
other format value with `errors.New("unknown text format")`. -/
def Messenger.newMessageCreationRequest (m : Messenger) (message : Message) :
    Except GoError CreateMessageRequest :=
  let request : CreateMessageRequest :=
    { RoomId := m.roomId
      ParentId := message.ParentId
      ToPersonId := m.personId
      ToPersonEmail := ""
      Text := message.PlainText
      Markdown := ""
      Html := ""
      File := message.File
      Attachment := none }
  let withFormat : Except GoError CreateMessageRequest :=
    if message.Format = TextFormatMarkdown then
      .ok { request with Markdown := message.Text }
    else if message.Format = TextFormatHTML then
      .ok { request with Html := message.Text }
    else
      .error (.mk "unknown text format")
  match withFormat with
  | .error e => .error e
  | .ok request =>
    match message.AdaptiveCard with
    | none => .ok request
    | some card =>
      .ok { request with
              Attachment := some ⟨"application/vnd.microsoft.card.adaptive", card⟩ }

/-- Embedding of `messenger.Send`. Besides the Go result it returns the
list of `CreateMessage` requests actually issued to the Webex client, so
that the absence of a network effect is an provable statement. -/
def Messenger.Send (m : Messenger) (message : Message) :
    Except GoError String × List CreateMessageRequest :=
  match m.newMessageCreationRequest message with
  | .error e =>
    (.error (.wrap "unable to prepare a message creation request" e), [])
  | .ok request =>
    let (webexMessage, webexErr, err) := m.webexClient request
    match err with
    | some e => (.error (.wrap "unable to send the message" e), [request])
    | none =>
      match webexErr with
      | some e => (.error (.wrap "unable to send the message" e), [request])
      | none => (.ok webexMessage.Id, [request])

/-! The combined dialog task provider (`dialog_task.go`). Dialog tasks are
interface values in Go; the provider logic only compares them with `nil`,
so a provider is embedded as `Event → Option τ` for an arbitrary type `τ`
of tasks, with `none` standing for `nil`. -/

/-- Embedding of `combinedDialogTaskProvider.ProvideFor`: call every
subprovider in order, return the first non-nil task, `nil` if none. -/
def combinedProvideFor {τ : Type} (subproviders : List (Event → Option τ))
    (event : Event) : Option τ :=
  match subproviders with
  | [] => none
  | subprovider :: rest =>
    match subprovider event with
    | some triggeredTask => some triggeredTask
    | none => combinedProvideFor rest event

/-! The `Listen` loop. Each iteration of the loop is one `select` over the
session's inbound channel and `ctx.Done()`; a run of the loop is driven by
an explicit schedule recording which branch fired at each iteration and
with what value. -/

/-- One iteration's outcome of the `select` in `messenger.Listen`: either
the inbound-events channel branch fires, yielding an event (a real one, or
the zero `Event` if the channel is closed), or the `ctx.Done()` branch
fires, `e` being the value of `ctx.Err()` at that moment. -/
inductive Arrival where
  | fromChan (event : Event)
  | ctxDone (e : GoError)
deriving DecidableEq, Repr

/-- Result of a `Listen` run: the returned `(response, err)` pair, or
`waiting` when the schedule was exhausted with the loop still blocked. -/
inductive ListenOutcome where
  | returns (response : GoAny) (err : Option GoError)
  | waiting
deriving DecidableEq, Repr

/-- Embedding of `webexbot.Listener`. -/
def Listener : Type := Event → GoAny × Option Message × Option GoError

/-- Embedding of `messenger.Listen`. Besides the Go result it returns the
list of clarification messages whose sending was attempted, in order. -/
def Messenger.Listen (m : Messenger) (listener : Listener) :
    List Arrival → ListenOutcome × List Message
  | [] => (.waiting, [])
  | .ctxDone e :: _ => (.returns .nil (some e), [])
  | .fromChan event :: rest =>
    let (response, clarification, err) := listener event
    match err with
    | some e => (.returns .nil (some e), [])
    | none =>
      if response ≠ .nil then (.returns response none, [])
      else
        match clarification with
        | none => m.Listen listener rest
        | some c =>
          match (m.Send c).1 with
          | .error e =>
            (.returns .nil (some (.wrap "unable to send the clarification" e)), [c])
          | .ok _ =>
            let r := m.Listen listener rest
            (r.1, c :: r.2)

/-- Embedding of `isOneOf` (the range loop over the offered options). -/
def isOneOf (optionId : String) : List ChoiceOption → Bool
  | [] => false
  | option :: rest => option.Id == optionId || isOneOf optionId rest

/-- Embedding of `fetchAttachmentAction`: the event must have resource kind
`AttachmentActions` and its resource must type-assert (comma-ok form) to
`webexapi.AttachmentAction`. -/
def fetchAttachmentAction (event : Event) : AttachmentAction × Bool :=
  if event.ResourceKind ≠ AttachmentActions then (zeroAttachmentAction, false)
  else
    match event.Resource with
    | .attachmentAction a => (a, true)
    | _ => (zeroAttachmentAction, false)

/-- Embedding of `fetchUserChoice`: unmarshal the attachment-action inputs
into `struct { Data string }` and return the `data` field. -/
def fetchUserChoice (attachmentAction : AttachmentAction) :
    Except GoError String :=
  match attachmentAction.Inputs with
  | .decodable data => .ok data
  | .undecodable msg =>
    .error (.wrap "unable to unmarshal the attachment action inputs" (.mk msg))

/-- Embedding of `messenger.newOptionsListener`. -/
def newOptionsListener (options : List ChoiceOption) : Listener := fun event =>
  let (attachmentAction, isSuccessful) := fetchAttachmentAction event
  if !isSuccessful then (.nil, none, none)
  else
    match fetchUserChoice attachmentAction with
    | .error e => (.nil, none, some e)
    | .ok userChoice =>
      if !(isOneOf userChoice options) then (.nil, none, none)
      else (.str userChoice, none, none)

/-- Result of `messenger.listenForChoice`, including the possibility that
its final statement `return userChoice.(string), err` panics: whenever
`Listen` returns a nil response — which it does in particular whenever it
returns a non-nil error, the context's cancellation error included — the
unchecked type assertion `userChoice.(string)` panics instead of returning.
`blocked` records a run whose schedule ends with `Listen` still waiting. -/
inductive ChoiceOutcome where
  | ok (optionId : String)
  | panicked (msg : String)
  | blocked
deriving DecidableEq, Repr

/-- Embedding of `messenger.listenForChoice`. -/
def Messenger.listenForChoice (m : Messenger) (options : List ChoiceOption)
    (schedule : List Arrival) : ChoiceOutcome :=
  match (m.Listen (newOptionsListener options) schedule).1 with
  | .waiting => .blocked
  | .returns userChoice _err =>
    match userChoice with
    | .str s => .ok s
    | _ => .panicked "interface conversion: interface \x7b\x7d is nil, not string"

/-- Modelled behaviour of `choiceMessageAdaptiveCardTemplate.Execute` on a
`ChoiceMessage`. The template is a compile-time constant in the source and
renders the prompt text with the action `.Message`, but `ChoiceMessage` has
only the fields `Text`, `Options` and `ParentId`; `html/template` treats
evaluating a field the data struct does not have as an execution error, so
`Execute` fails for every `ChoiceMessage` value. -/
def choiceMessageAdaptiveCardTemplateExecute (_message : ChoiceMessage) :
    Except GoError String :=
  .error (.mk "template: ChoiceMessageAdaptiveCard: cannot evaluate field Message in type webexbot.ChoiceMessage")

/-- Embedding of `messenger.newChoiceMessageCreationRequest`. -/
def Messenger.newChoiceMessageCreationRequest (m : Messenger)
    (message : ChoiceMessage) : Except GoError CreateMessageRequest :=
  match choiceMessageAdaptiveCardTemplateExecute message with
  | .error e => .error (.wrap "unable to build an adaptive card" e)
  | .ok adaptiveCard =>
    .ok { RoomId := m.roomId
          ParentId := message.ParentId
          ToPersonId := m.personId
          ToPersonEmail := ""
          Text := ""
          Markdown := message.Text
          Html := ""
          File := none
          Attachment := some ⟨"application/vnd.microsoft.card.adaptive", adaptiveCard⟩ }

/-- Embedding of `messenger.sendChoiceMessage`, with the requests actually
issued to the Webex client recorded. -/
def Messenger.sendChoiceMessage (m : Messenger) (message : ChoiceMessage) :
    Except GoError String × List CreateMessageRequest :=
  match m.newChoiceMessageCreationRequest message with
  | .error e =>
    (.error (.wrap "unable to prepare a message creation request" e), [])
  | .ok request =>
    let (webexMessage, webexErr, err) := m.webexClient request
    match err with
    | some e => (.error (.wrap "unable to send the message" e), [request])
    | none =>
      match webexErr with
      | some e => (.error (.wrap "unable to send the message" e), [request])
      | none => (.ok webexMessage.Id, [request])

/-- Result of `messenger.OfferChoice`. -/
inductive OfferOutcome where
  | ok (optionId : String)
  | err (e : GoError)
  | panicked (msg : String)
  | blocked
deriving DecidableEq, Repr

/-- Embedding of `messenger.OfferChoice`: send the choice prompt, then
listen for the choice; the `CreateMessage` requests issued to the Webex
client are returned alongside. -/
def Messenger.OfferChoice (m : Messenger) (message : ChoiceMessage)
    (schedule : List Arrival) : OfferOutcome × List CreateMessageRequest :=
  let (sendResult, calls) := m.sendChoiceMessage message
  match sendResult with
  | .error e => (.err (.wrap "unable to send the choice message" e), calls)
  | .ok _ =>
    match m.listenForChoice message.Options schedule with
    | .ok optionId => (.ok optionId, calls)
    | .panicked msg => (.panicked msg, calls)
    | .blocked => (.blocked, calls)

/-! The session's inbound channel, for the closed-channel analysis of
`Listen`. -/

/-- State of the buffered inbound `chan Event`. -/
structure EventChannel where
  buffer : List Event
  closed : Bool
deriving DecidableEq, Repr

/-- Whether a receive from the channel can proceed immediately: a buffered
event is available, or the channel is closed (a receive from a closed,
drained channel yields the zero `Event` at once). -/
def EventChannel.recvReady (c : EventChannel) : Bool :=
  !c.buffer.isEmpty || c.closed

/-- Go semantics of `<-ch` for the inbound channel as a function of the
channel state (meaningful when `recvReady c = true`): a buffered event is
taken first; otherwise — the channel being closed — the zero `Event` is
returned and the channel state is unchanged. -/
def EventChannel.recv (c : EventChannel) : Event × EventChannel :=
  match c.buffer with
  | e :: rest => (e, { c with buffer := rest })
  | [] => (zeroEvent, c)

/-! The worker goroutine `dialogTaskRoutine` (dialog_controller.go). Its
body runs `task.Talk` and then, in a deferred function, decides whether to
report completion: if its context is already done at that check, it returns
without signalling (and without calling `recover`); otherwise it cancels
its own context, recovers a panic of `Talk` into the completion error, and
sends exactly one completion signal. -/

/-- Outcome of `DialogTask.Talk`: it returned (with a possibly nil error),
or it panicked with the given message. -/
inductive TalkOutcome where
  | returned (err : Option GoError)
  | panicked (msg : String)
deriving DecidableEq, Repr

/-- Embedding of `completionSignal` (the key is spelt out as its two
fields, taken from `messenger.DialogInfo()`). -/
structure CompletionSignalValue where
  personId : String
  roomId : String
  executionError : Option GoError
deriving DecidableEq, Repr

/-- What a single run of `dialogTaskRoutine` does, observably: it sends one
completion signal, or it returns silently, or — when its context was done
at the deferred check while a panic of `Talk` was in flight — it returns
from the deferred function without recovering, so the panic resumes and
crashes the goroutine (taking the process down); in that last case, too,
no completion signal is sent. -/
inductive RoutineOutcome where
  | signaled (signal : CompletionSignalValue)
  | silent
  | crashed (panicMsg : String)
deriving DecidableEq, Repr

/-- Embedding of `dialogTaskRoutine`'s deferred completion logic as a
function of the outcome of `task.Talk(ctx, messenger)` and of whether the
worker's context was already done at the moment of the deferred
`select { case <-ctx.Done(): return; default: cancelFunc() }` check. -/
def dialogTaskRoutine (personId roomId : String) (talk : TalkOutcome)
    (ctxDoneAtCheck : Bool) : RoutineOutcome :=
  if ctxDoneAtCheck then
    match talk with
    | .panicked msg => .crashed msg
    | .returned _ => .silent
  else
    let err : Option GoError :=
      match talk with
      | .returned e => e
      | .panicked msg =>
        some (.mk ("the dialog task is recovered from panic : " ++ msg))
    .signaled ⟨personId, roomId, err⟩

/-! The dialog controller's event processing (`dialog_controller.go`),
modelled over the registry and the per-dialog channel/context state that
`processEvent` touches. Dialog tasks matter only through nil-ness here, so
the task provider is embedded as `Event → Option Nat`. -/

/-- Embedding of `dialogKey`. -/
structure dialogKey where
  personId : String
  roomId : String
deriving DecidableEq, Repr

/-- The per-dialog state `processEvent` can observe or affect, standing for
a `dialogReferences` entry: the done-flag of its cancellable context, the
inbound channel's buffer and the channel's closed-flag. -/
structure dialogState where
  ctxDone : Bool
  queue : List Event
  closed : Bool
deriving DecidableEq, Repr

/-- What `startDialog` creates: a fresh (not yet cancelled) context and a
fresh open channel. -/
def freshDialogState : dialogState := ⟨false, [], false⟩

/-- The inbound channel capacity chosen in `startDialog`:
`make(chan Event, 16)`. -/
def eventChanCapacity : Nat := 16

/-- The `pushingTimeout` constant of `pushEvent`, in milliseconds
(`10 * time.Millisecond`). -/
def pushingTimeoutMilliseconds : Nat := 10

/-- The registry `activeDialogs map[dialogKey]dialogReferences`, as an
association list with at most one binding per key. -/
def Registry : Type := List (dialogKey × dialogState)

/-- Go map lookup. -/
def lookupDialog : Registry → dialogKey → Option dialogState
  | [], _ => none
  | (k, d) :: rest, key => if k = key then some d else lookupDialog rest key

/-- Go map store (overwrites any existing binding for the key). -/
def insertDialog : Registry → dialogKey → dialogState → Registry
  | [], key, d => [(key, d)]
  | (k, x) :: rest, key, d =>
    if k = key then (key, d) :: rest else (k, x) :: insertDialog rest key d

/-- Embedding of `dialogController.isDialogActive`. -/
def isDialogActive (r : Registry) (key : dialogKey) : Bool :=
  (lookupDialog r key).isSome

/-- Embedding of `dialogController.stopDialog`: if the dialog's context is
already done, do nothing; otherwise cancel the context and close the
inbound channel. The registry binding itself is kept. -/
def stopDialog (r : Registry) (key : dialogKey) : Registry :=
  match lookupDialog r key with
  | none => r
  | some d =>
    if d.ctxDone then r
    else insertDialog r key { d with ctxDone := true, closed := true }

/-- Embedding of `dialogController.startDialog` as it affects the registry:
a fresh cancellable context and a fresh channel of capacity 16 are created
and the binding for the initial event's key is overwritten. (The worker
goroutine it dispatches is analysed separately via `dialogTaskRoutine`.) -/
def startDialog (r : Registry) (initialEvent : Event) : Registry :=
  insertDialog r ⟨initialEvent.InitiatorId, initialEvent.RoomId⟩ freshDialogState

/-- The three exits of the `select` in `pushEvent`: the channel send, the
dialog's own `Done` channel, and the 10 ms pushing-timeout context. -/
inductive PushBranch where
  | send
  | dialogDone
  | timeout
deriving DecidableEq, Repr

/-- Which branches of the `select` in `pushEvent` are able to fire:
`eventChan <- event` can proceed while the channel is open and its buffer
has room; `<-dialogContext.Done()` once the dialog's context is done; and
`<-ctx.Done()` once the pushing timeout has expired (`timerFired`). Go's
`select` only ever executes a branch that is able to proceed. -/
def branchReady (d : dialogState) (timerFired : Bool) : PushBranch → Bool
  | .send => !d.closed && d.queue.length < eventChanCapacity
  | .dialogDone => d.ctxDone
  | .timeout => timerFired

/-- Embedding of `dialogController.pushEvent`, as a function of the select
branch that fired. It returns the updated registry and whether the timeout
warning was logged. When the key has no binding (never the case on the
paths from `processEvent`) the zero `dialogReferences` value makes both
channel operands nil, so only the timeout branch can ever fire. -/
def pushEvent (r : Registry) (key : dialogKey) (event : Event)
    (branch : PushBranch) : Registry × Bool :=
  match lookupDialog r key with
  | none => (r, if branch = .timeout then true else false)
  | some d =>
    match branch with
    | .send => (insertDialog r key { d with queue := d.queue ++ [event] }, false)
    | .dialogDone => (r, false)
    | .timeout => (r, true)

/-- Embedding of `dialogController.processEvent`: consult the provider,
then run the `switch` whose first two cases `fallthrough` — a triggering
event stops the active dialog if there is one, starts the new dialog, and
then, like a non-triggering event addressed to an active dialog, is pushed
to the (new) dialog's channel. Returns the updated registry and whether the
push-timeout warning was logged. -/
def processEvent (r : Registry) (provider : Event → Option Nat) (event : Event)
    (branch : PushBranch) : Registry × Bool :=
  let triggeredTask := provider event
  let key : dialogKey := ⟨event.InitiatorId, event.RoomId⟩
  let isActive := isDialogActive r key
  if isActive && triggeredTask.isSome then
    pushEvent (startDialog (stopDialog r key) event) key event branch
  else if !isActive && triggeredTask.isSome then
    pushEvent (startDialog r event) key event branch
  else if isActive && !triggeredTask.isSome then
    pushEvent r key event branch
  else
    (r, false)

namespace StaleSignal

/-! A labelled transition system for the concurrent interaction between the
control loop of `dialogController.run` and the `dialogTaskRoutine` workers
for one session key. Workers — and their contexts and channels — are
identified by generation numbers in creation order; the registry holds the
generation of the current `activeDialogs` entry for the key, if any. Each
step mirrors a statement of `dialog_controller.go`; steps of distinct
goroutines interleave freely, which is exactly what the Go scheduler
permits. -/

/-- Phase of one worker goroutine (`dialogTaskRoutine`). -/
inductive Phase where
  | running      -- executing `task.Talk`
  | atDefer      -- `Talk` finished; about to run the deferred select
  | readyToSend  -- passed the `default` branch (own cancel done); blocked sending the completion signal
  | sent         -- its completion signal was received by the control loop
  | silent       -- took the `<-ctx.Done()` branch; exited without signalling
deriving DecidableEq, Repr

/-- Global state of the controller and of the workers for the key. -/
structure Sys where
  registry : Option Nat
  nextGen : Nat
  workers : List (Nat × Phase)
  cancelled : List Nat
  chanClosed : List Nat
deriving DecidableEq, Repr

/-- Initial state: no entry, no workers. -/
def init : Sys := ⟨none, 0, [], [], []⟩

/-- Effect of `stopDialog` on the entry of generation `g`: a no-op if that
generation's context is already done, otherwise cancel it and close its
channel. The registry entry is not removed. -/
def stopGen (s : Sys) (g : Nat) : Sys :=
  if g ∈ s.cancelled then s
  else { s with cancelled := g :: s.cancelled, chanClosed := g :: s.chanClosed }

/-- Effect of `startDialog`: the next generation's context, channel and
worker are created and the registry entry is overwritten. -/
def startGen (s : Sys) : Sys :=
  { s with registry := some s.nextGen,
           workers := (s.nextGen, Phase.running) :: s.workers,
           nextGen := s.nextGen + 1 }

/-- Replace the phase recorded for generation `gen`. -/
def setPhase : List (Nat × Phase) → Nat → Phase → List (Nat × Phase)
  | [], _, _ => []
  | (g, p) :: rest, gen, phase =>
    if g = gen then (g, phase) :: rest else (g, p) :: setPhase rest gen phase

/-- Labels naming what happened in a step. -/
inductive Label where
  | triggerEvent
  | finishTalk (g : Nat)
  | deferObservesDone (g : Nat)
  | deferPassesCheck (g : Nat)
  | acceptSignal (g : Nat) (deletedGen : Nat)
deriving DecidableEq, Repr

/-- Steps of the controller/worker system:
* `triggerActive`/`triggerInactive` — the control loop processes an event
  that triggers a task for the key (`processEvent`, switch cases one and
  two: `stopDialog` if an entry exists, then `startDialog`);
* `finishTalk` — worker `g`'s `task.Talk` returns;
* `deferObservesDone` — worker `g` runs the deferred
  `select { case <-ctx.Done(): return; default: ... }` and its context is
  done, so it returns without signalling (Go's `select` never takes the
  `default` branch while another branch can proceed);
* `deferPassesCheck` — worker `g` runs the deferred select while its
  context is not done, so the `default` branch calls the worker's own
  `cancelFunc`; the worker then blocks sending its completion signal on the
  unbuffered `completionSignals` channel;
* `acceptSignal` — the control loop receives worker `g`'s completion
  signal and runs `processCompletionSignal`, which closes the channel of
  whatever entry is currently registered under the key (generation
  `deletedGen`) and deletes that entry, without comparing it to the
  signalling worker's generation. -/
inductive Step : Sys → Label → Sys → Prop where
  | triggerActive (s : Sys) (g : Nat) (h : s.registry = some g) :
      Step s .triggerEvent (startGen (stopGen s g))
  | triggerInactive (s : Sys) (h : s.registry = none) :
      Step s .triggerEvent (startGen s)
  | finishTalk (s : Sys) (g : Nat) (h : (g, Phase.running) ∈ s.workers) :
      Step s (.finishTalk g) { s with workers := setPhase s.workers g .atDefer }
  | deferObservesDone (s : Sys) (g : Nat) (hw : (g, Phase.atDefer) ∈ s.workers)
      (hc : g ∈ s.cancelled) :
      Step s (.deferObservesDone g)
        { s with workers := setPhase s.workers g .silent }
  | deferPassesCheck (s : Sys) (g : Nat) (hw : (g, Phase.atDefer) ∈ s.workers)
      (hc : g ∉ s.cancelled) :
      Step s (.deferPassesCheck g)
        { s with workers := setPhase s.workers g .readyToSend,
                 cancelled := g :: s.cancelled }
  | acceptSignal (s : Sys) (g d : Nat) (hw : (g, Phase.readyToSend) ∈ s.workers)
      (hr : s.registry = some d) :
      Step s (.acceptSignal g d)
        { s with registry := none,
                 workers := setPhase s.workers g .sent,
                 chanClosed := d :: s.chanClosed }

/-- A finite run chaining steps with the given labels. -/
inductive Trace : Sys → List Label → Sys → Prop where
  | nil (s : Sys) : Trace s [] s
  | cons {s s2 s3 : Sys} {l : Label} {ls : List Label}
      (step : Step s l s2) (rest : Trace s2 ls s3) : Trace s (l :: ls) s3

end StaleSignal

/-! Derived notions about a listener, used to state the `Listen` theorems. -/

/-- Whether the listener yields a terminal outcome (a non-nil response or a
non-nil error) on this event. -/
def listenerTerminal (listener : Listener) (event : Event) : Bool :=
  (listener event).1 != .nil || (listener event).2.2.isSome

/-- The `(response, err)` pair `Listen` returns when the listener yields a
terminal outcome on the event; the error is checked before the response,
as in the code. -/
def listenerOutcome (listener : Listener) (event : Event) : ListenOutcome :=
  match (listener event).2.2 with
  | some e => .returns .nil (some e)
  | none => .returns (listener event).1 none

/-- The clarification messages the `Listen` loop attempts to send while
processing the given events: one per event on which the listener yields a
nil response, a non-nil clarification and a nil error. -/
def clarificationsOf (listener : Listener) (events : List Event) : List Message :=
  events.filterMap fun e =>
    match listener e with
    | (.nil, clarification, none) => clarification
    | _ => none

/-! Sample values used by witness theorems. -/

/-- A Webex client whose `CreateMessage` always succeeds. -/
def alwaysOkClient : WebexClient := fun _ => (⟨"message-id"⟩, none, none)

/-- A Webex client whose `CreateMessage` always fails with a transport
error. -/
def failingClient : WebexClient := fun _ => (⟨""⟩, none, some (.mk "network failure"))

/-- A messenger over the always-succeeding client. -/
def okMessenger : Messenger := ⟨"person-1", "room-1", zeroEvent, alwaysOkClient⟩

/-- A messenger over the always-failing client. -/
def failMessenger : Messenger := ⟨"person-1", "room-1", zeroEvent, failingClient⟩

/-- A markdown message (the zero `TextFormat` is `TextFormatMarkdown`). -/
def sampleClarification : Message := ⟨"please clarify", 0, "", none, none, ""⟩

/-- A message whose `Format` value is neither of the two known formats. -/
def badFormatMessage : Message := ⟨"hello", 7, "", none, none, ""⟩

/-- An event that carries the distinguishing room id "stop". -/
def stopEvent : Event := { zeroEvent with RoomId := "stop" }

/-- A listener that answers the stop event terminally and asks for a
clarification on every other event. -/
def clarifyThenDoneListener : Listener := fun e =>
  if e.RoomId = "stop" then (.str "done", none, none)
  else (.nil, some sampleClarification, none)

/-- A listener to which every event is irrelevant. -/
def indifferentListener : Listener := fun _ => (.nil, none, none)

/-- A listener that asks for a clarification on every event. -/
def alwaysClarifyListener : Listener := fun _ => (.nil, some sampleClarification, none)

/-- A closed, drained inbound channel. -/
def closedEventChannel : EventChannel := ⟨[], true⟩

/-- A sample pair of offered options. -/
def yesNoOptions : List ChoiceOption := [⟨"yes", "Yes"⟩, ⟨"no", "No"⟩]

/-- A sample choice message offering the two options. -/
def yesNoChoiceMessage : ChoiceMessage := ⟨"Proceed?", yesNoOptions, ""⟩

/-- An attachment-action submit event whose decoded value is `v`. -/
def submitEvent (v : String) : Event :=
  { zeroEvent with
      Resource := .attachmentAction { zeroAttachmentAction with Inputs := .decodable v }
      ResourceKind := AttachmentActions }

/-- An attachment-action submit event whose payload cannot be decoded. -/
def malformedSubmitEvent : Event :=
  { zeroEvent with
      Resource := .attachmentAction
        { zeroAttachmentAction with Inputs := .undecodable "invalid character" }
      ResourceKind := AttachmentActions }

/-- A sample task provider that triggers a task on every event. -/
def alwaysTriggerProvider : Event → Option Nat := fun _ => some 0

/-- A sample task provider that never triggers a task. -/
def neverTriggerProvider : Event → Option Nat := fun _ => none

/-! Theorems. -/

/-- C8 — Combined provider order: for every list of sub-providers and every
event, the provider built by `NewCombinedDialogTaskProvider` returns the
task of the first sub-provider returning non-nil (all sub-providers before
it return nil), and returns nil exactly when every sub-provider returns
nil. -/
theorem combinedProvideFor_first_non_nil {τ : Type}
    (subproviders : List (Event → Option τ)) (event : Event) :
    (∀ task : τ, combinedProvideFor subproviders event = some task →
      ∃ pre q post, subproviders = pre ++ q :: post ∧
        (∀ r ∈ pre, r event = none) ∧ q event = some task) ∧
    (combinedProvideFor subproviders event = none ↔
      ∀ q ∈ subproviders, q event = none) := by
  induction subproviders with
  | nil =>
    constructor
    · intro task htask
      simp [combinedProvideFor] at htask
    · simp [combinedProvideFor]
  | cons p rest ih =>
    rcases h : p event with _ | t
    · have hc : combinedProvideFor (p :: rest) event =
          combinedProvideFor rest event := by
        simp [combinedProvideFor, h]
      constructor
      · intro task htask
        rw [hc] at htask
        obtain ⟨pre, q, post, hsplit, hpre, hq⟩ := ih.1 task htask
        refine ⟨p :: pre, q, post, by simp [hsplit], ?_, hq⟩
        intro r hr
        rcases List.mem_cons.mp hr with hr | hr
        · exact hr ▸ h
        · exact hpre r hr
      · rw [hc, ih.2]
        constructor
        · intro hall q hq
          rcases List.mem_cons.mp hq with hq | hq
          · exact hq ▸ h
          · exact hall q hq
        · intro hall q hq
          exact hall q (List.mem_cons_of_mem p hq)
    · have hc : combinedProvideFor (p :: rest) event = some t := by
        simp [combinedProvideFor, h]
      constructor
      · intro task htask
        rw [hc] at htask
        obtain rfl : t = task := Option.some.inj htask
        exact ⟨[], p, rest, rfl, by simp, h⟩
      · rw [hc]
        constructor
        · intro hfalse
          exact absurd hfalse (by simp)
        · intro hall
          have := hall p (List.mem_cons_self p rest)
          rw [h] at this
          exact this

/-- C8 witness: on a concrete list of three sub-providers — nil, task 7,
task 9 — the combined provider returns 7, delivered by the second
sub-provider while the first returned nil. -/
theorem combinedProvideFor_first_non_nil_witness :
    ∃ pre q post,
      [fun _ : Event => (none : Option Nat), fun _ => some 7, fun _ => some 9] =
        pre ++ q :: post ∧
      (∀ r ∈ pre, r zeroEvent = none) ∧ q zeroEvent = some 7 :=
  (combinedProvideFor_first_non_nil
    [fun _ => none, fun _ => some 7, fun _ => some 9] zeroEvent).1 7 rfl

/-- C6 — Send fail-fast on unknown format: a message whose `Format` is
neither `TextFormatMarkdown` nor `TextFormatHTML` makes `Send` return an
error without any `CreateMessage` call being made; for the two known
formats exactly one request is created, carrying the text in the
corresponding `Markdown` or `Html` field. -/
theorem Send_fail_fast_on_unknown_format (m : Messenger) (message : Message) :
    (message.Format ≠ TextFormatMarkdown → message.Format ≠ TextFormatHTML →
      (m.Send message).2 = [] ∧
      (m.Send message).1 = .error (.wrap "unable to prepare a message creation request"
        (.mk "unknown text format"))) ∧
    (message.Format = TextFormatMarkdown →
      ∃ request, (m.Send message).2 = [request] ∧
        request.Markdown = message.Text ∧ request.Html = "") ∧
    (message.Format = TextFormatHTML →
      ∃ request, (m.Send message).2 = [request] ∧
        request.Html = message.Text ∧ request.Markdown = "") := by
  have hcall : ∀ request, m.newMessageCreationRequest message = .ok request →
      (m.Send message).2 = [request] := by
    intro request hreq
    rcases hcl : m.webexClient request with ⟨wm, werr, err⟩
    rcases werr with _ | e <;> rcases err with _ | e2 <;>
      simp [Messenger.Send, hreq, hcl]
  refine ⟨?_, ?_, ?_⟩
  · intro h0 h1
    have hreq : m.newMessageCreationRequest message =
        .error (.mk "unknown text format") := by
      simp only [Messenger.newMessageCreationRequest]
      rw [if_neg h0, if_neg h1]
    simp [Messenger.Send, hreq]
  · intro h0
    obtain ⟨request, hreq, hmd, hhtml⟩ :
        ∃ request, m.newMessageCreationRequest message = .ok request ∧
          request.Markdown = message.Text ∧ request.Html = "" := by
      rcases hac : message.AdaptiveCard with _ | card
      · refine ⟨⟨m.roomId, message.ParentId, m.personId, "", message.PlainText,
            message.Text, "", message.File, none⟩, ?_, rfl, rfl⟩
        simp only [Messenger.newMessageCreationRequest]
        rw [if_pos h0]
        simp [hac]
      · refine ⟨⟨m.roomId, message.ParentId, m.personId, "", message.PlainText,
            message.Text, "", message.File,
            some ⟨"application/vnd.microsoft.card.adaptive", card⟩⟩, ?_, rfl, rfl⟩
        simp only [Messenger.newMessageCreationRequest]
        rw [if_pos h0]
        simp [hac]
    exact ⟨request, hcall request hreq, hmd, hhtml⟩
  · intro h1
    have h0 : message.Format ≠ TextFormatMarkdown := by
      rw [h1]; decide
    obtain ⟨request, hreq, hhtml, hmd⟩ :
        ∃ request, m.newMessageCreationRequest message = .ok request ∧
          request.Html = message.Text ∧ request.Markdown = "" := by
      rcases hac : message.AdaptiveCard with _ | card
      · refine ⟨⟨m.roomId, message.ParentId, m.personId, "", message.PlainText,
            "", message.Text, message.File, none⟩, ?_, rfl, rfl⟩
        simp only [Messenger.newMessageCreationRequest]
        rw [if_neg h0, if_pos h1]
        simp [hac]
      · refine ⟨⟨m.roomId, message.ParentId, m.personId, "", message.PlainText,
            "", message.Text, message.File,
            some ⟨"application/vnd.microsoft.card.adaptive", card⟩⟩, ?_, rfl, rfl⟩
        simp only [Messenger.newMessageCreationRequest]
        rw [if_neg h0, if_pos h1]
        simp [hac]
    exact ⟨request, hcall request hreq, hhtml, hmd⟩

/-- C6 witness: with a format value of 7, `Send` makes no `CreateMessage`
call and returns the unknown-text-format error. -/
theorem Send_fail_fast_on_unknown_format_witness :
    (okMessenger.Send badFormatMessage).2 = [] ∧
    (okMessenger.Send badFormatMessage).1 =
      .error (.wrap "unable to prepare a message creation request"
        (.mk "unknown text format")) :=
  (Send_fail_fast_on_unknown_format okMessenger badFormatMessage).1
    (by decide) (by decide)

/-- C2 — Exactly-once completion: a worker whose context is not done at the
deferred pre-send check sends exactly one completion signal, whose error is
`Talk`'s returned error, or, if `Talk` panicked, the recovered-from-panic
error; a worker whose context is already done at that check sends no
signal. (`dialogTaskRoutine` produces exactly one `RoutineOutcome`, so
"never both, never neither" is inherent in its type.) -/
theorem dialogTaskRoutine_exactly_once (personId roomId : String)
    (talk : TalkOutcome) (ctxDoneAtCheck : Bool) :
    (ctxDoneAtCheck = false →
      dialogTaskRoutine personId roomId talk ctxDoneAtCheck =
        .signaled ⟨personId, roomId,
          match talk with
          | .returned e => e
          | .panicked msg =>
            some (.mk ("the dialog task is recovered from panic : " ++ msg))⟩) ∧
    (ctxDoneAtCheck = true →
      ∀ signal, dialogTaskRoutine personId roomId talk ctxDoneAtCheck ≠
        .signaled signal) := by
  constructor
  · intro h
    subst h
    rcases talk with e | msg <;> rfl
  · intro h signal
    subst h
    rcases talk with e | msg <;> simp [dialogTaskRoutine]

/-- C2 witness: a non-preempted worker whose `Talk` panicked sends exactly
the recovered-panic signal, and a preempted worker with the same `Talk`
outcome sends nothing. -/
theorem dialogTaskRoutine_exactly_once_witness :
    dialogTaskRoutine "person-1" "room-1" (.panicked "boom") false =
      .signaled ⟨"person-1", "room-1",
        some (.mk ("the dialog task is recovered from panic : " ++ "boom"))⟩ ∧
    ∀ signal, dialogTaskRoutine "person-1" "room-1" (.panicked "boom") true ≠
      .signaled signal :=
  ⟨(dialogTaskRoutine_exactly_once "person-1" "room-1" (.panicked "boom") false).1 rfl,
    (dialogTaskRoutine_exactly_once "person-1" "room-1" (.panicked "boom") true).2 rfl⟩

/-- Helper: a `Listen` iteration on an event with a terminal listener
outcome returns that outcome at once, attempting no clarification send. -/
lemma Listen_terminal_head (m : Messenger) (listener : Listener) (e : Event)
    (tail : List Arrival) (h : listenerTerminal listener e = true) :
    m.Listen listener (.fromChan e :: tail) = (listenerOutcome listener e, []) := by
  rcases he : listener e with ⟨resp, clar, err⟩
  simp only [listenerTerminal, he] at h
  rcases err with _ | e2
  · have hresp : resp ≠ .nil := by
      intro hr
      rw [hr] at h
      simp at h
    simp only [Messenger.Listen, he, listenerOutcome]
    rw [if_pos hresp]
  · simp [Messenger.Listen, he, listenerOutcome]

/-- Helper: `Listen` runs through a prefix of events on which the listener
is never terminal — attempting exactly the clarifications the listener asks
for, each of which is assumed to send successfully — and then behaves as it
would on the rest of the schedule. -/
lemma Listen_nonterminal_run (m : Messenger) (listener : Listener)
    (pre : List Event) (tail : List Arrival)
    (hpre : ∀ e ∈ pre, listenerTerminal listener e = false)
    (hsend : ∀ e ∈ pre, ∀ c : Message, (listener e).2.1 = some c →
      ∃ id, (m.Send c).1 = .ok id) :
    m.Listen listener (pre.map .fromChan ++ tail) =
      ((m.Listen listener tail).1,
        clarificationsOf listener pre ++ (m.Listen listener tail).2) := by
  induction pre with
  | nil => simp [clarificationsOf]
  | cons e rest ih =>
    have hterm := hpre e (List.mem_cons_self e rest)
    rcases he : listener e with ⟨resp, clar, err⟩
    simp only [listenerTerminal, he] at hterm
    have hresp : resp = .nil := by
      rcases resp with _ | s | a
      · rfl
      all_goals simp at hterm
    have herr : err = none := by
      rcases err with _ | e2
      · rfl
      · simp at hterm
    subst hresp
    subst herr
    have ih2 := ih (fun x hx => hpre x (List.mem_cons_of_mem e hx))
      (fun x hx c hc => hsend x (List.mem_cons_of_mem e hx) c hc)
    rcases clar with _ | c
    · simp only [List.map_cons, List.cons_append, Messenger.Listen, he]
      simp only [ne_eq, not_true_eq_false, if_false, reduceCtorEq, List.append_eq]
      rw [ih2]
      simp [clarificationsOf, he]
    · obtain ⟨id, hid⟩ := hsend e (List.mem_cons_self e rest) c (by rw [he])
      simp only [List.map_cons, List.cons_append, Messenger.Listen, he]
      simp only [ne_eq, not_true_eq_false, if_false, reduceCtorEq, List.append_eq]
      rw [hid, ih2]
      simp [clarificationsOf, he]

/-- C4 (amended) — Listen terminality: provided every clarification the
listener asks for sends successfully, `Listen` returns on the first event
on which the listener yields a non-nil response or a non-nil error, and on
no other event; on a `(nil, clarification, nil)` event it sends the
clarification and keeps looping, and on a `(nil, nil, nil)` event it keeps
looping with no side effect. (If a clarification send fails, `Listen`
instead returns the wrapped send error at that event — see the
counterexample to the unamended claim.) -/
theorem Listen_terminality (m : Messenger) (listener : Listener)
    (events : List Event)
    (hsend : ∀ e ∈ events, ∀ c : Message, (listener e).2.1 = some c →
      ∃ id, (m.Send c).1 = .ok id) :
    ((∀ e ∈ events, listenerTerminal listener e = false) →
      m.Listen listener (events.map .fromChan) =
        (.waiting, clarificationsOf listener events)) ∧
    (∀ pre e post, events = pre ++ e :: post →
      (∀ x ∈ pre, listenerTerminal listener x = false) →
      listenerTerminal listener e = true →
      m.Listen listener (events.map .fromChan) =
        (listenerOutcome listener e, clarificationsOf listener pre)) := by
  constructor
  · intro hall
    have := Listen_nonterminal_run m listener events [] hall hsend
    simpa [Messenger.Listen] using this
  · intro pre e post hsplit hpre hterm
    subst hsplit
    have hpre2 : ∀ x ∈ pre, listenerTerminal listener x = false := hpre
    have hsend2 : ∀ x ∈ pre, ∀ c : Message, (listener x).2.1 = some c →
        ∃ id, (m.Send c).1 = .ok id := by
      intro x hx c hc
      exact hsend x (List.mem_append_left _ hx) c hc
    have hpref := Listen_nonterminal_run m listener pre
      (.fromChan e :: post.map .fromChan) hpre2 hsend2
    have hhead := Listen_terminal_head m listener e (post.map .fromChan) hterm
    rw [List.map_append, List.map_cons] at *
    rw [hpref, hhead]
    simp

/-- C4 counterexample (to the unamended claim): a listener that yields
`(nil, clarification, nil)` on the only delivered event — so by the claim
`Listen` must keep looping — nevertheless makes `Listen` return on that
event when the clarification send fails, with the wrapped send error. -/
theorem Listen_returns_on_failed_clarification :
    alwaysClarifyListener zeroEvent = (.nil, some sampleClarification, none) ∧
    failMessenger.Listen alwaysClarifyListener [.fromChan zeroEvent] =
      (.returns .nil (some (.wrap "unable to send the clarification"
        (.wrap "unable to send the message" (.mk "network failure")))),
        [sampleClarification]) := by
  exact ⟨rfl, rfl⟩

/-- C4 witness: over a schedule of an irrelevant-but-clarified event
followed by a terminal event, `Listen` (with an always-succeeding send)
returns the listener's response from the terminal event and attempted
exactly the one clarification. -/
theorem Listen_terminality_witness :
    okMessenger.Listen clarifyThenDoneListener
        ([zeroEvent, stopEvent].map .fromChan) =
      (.returns (.str "done") none, [sampleClarification]) := by
  have h := (Listen_terminality okMessenger clarifyThenDoneListener
      [zeroEvent, stopEvent] ?_).2 [zeroEvent] stopEvent [] rfl ?_ ?_
  · rw [h]
    rfl
  · intro e he c hc
    refine ⟨"message-id", ?_⟩
    rcases List.mem_cons.mp he with rfl | he2
    · have : c = sampleClarification := by
        simp [clarifyThenDoneListener, zeroEvent] at hc
        exact hc.symm
      subst this
      rfl
    · rcases List.mem_cons.mp he2 with rfl | he3
      · simp [clarifyThenDoneListener, stopEvent] at hc
      · cases he3
  · intro x hx
    rcases List.mem_cons.mp hx with rfl | hx2
    · rfl
    · cases hx2
  · rfl

/-- C3 — Listen cancellation, and what `OfferChoice` actually does with it
(code bug): `Listen` itself returns the context's cancellation error
whenever cancellation fires before any listener-terminal event. But
`OfferChoice` never exhibits the claimed behaviour: its adaptive-card
template evaluates the field `.Message`, which `ChoiceMessage` does not
have, so the prompt send fails and `OfferChoice` returns that error for
every message and schedule, without any `CreateMessage` call and without
ever listening; and even reaching `listenForChoice` would not return the
cancellation error, because its unchecked `userChoice.(string)` type
assertion panics on the nil response `Listen` pairs with any error. -/
theorem Listen_cancellation_OfferChoice_divergence (m : Messenger)
    (listener : Listener) (pre : List Event) (cancelErr : GoError)
    (message : ChoiceMessage) (options : List ChoiceOption)
    (schedule : List Arrival)
    (hpre : ∀ e ∈ pre, listenerTerminal listener e = false)
    (hsend : ∀ e ∈ pre, ∀ c : Message, (listener e).2.1 = some c →
      ∃ id, (m.Send c).1 = .ok id) :
    (m.Listen listener (pre.map .fromChan ++ [.ctxDone cancelErr])).1 =
      .returns .nil (some cancelErr) ∧
    (m.OfferChoice message schedule).1 =
      .err (.wrap "unable to send the choice message"
        (.wrap "unable to prepare a message creation request"
          (.wrap "unable to build an adaptive card"
            (.mk "template: ChoiceMessageAdaptiveCard: cannot evaluate field Message in type webexbot.ChoiceMessage")))) ∧
    (m.OfferChoice message schedule).2 = [] ∧
    m.listenForChoice options [.ctxDone cancelErr] =
      .panicked "interface conversion: interface \x7b\x7d is nil, not string" := by
  refine ⟨?_, rfl, rfl, rfl⟩
  rw [Listen_nonterminal_run m listener pre [.ctxDone cancelErr] hpre hsend]
  rfl

/-- C3 witness: with an indifferent listener and one delivered event before
cancellation, `Listen` returns the cancellation error; `OfferChoice` on the
concrete yes/no prompt returns the template error with zero requests; and
`listenForChoice` panics on immediate cancellation. -/
theorem Listen_cancellation_OfferChoice_divergence_witness :
    (okMessenger.Listen indifferentListener
        ([zeroEvent].map .fromChan ++ [.ctxDone .contextCanceled])).1 =
      .returns .nil (some .contextCanceled) ∧
    (okMessenger.OfferChoice yesNoChoiceMessage []).1 =
      .err (.wrap "unable to send the choice message"
        (.wrap "unable to prepare a message creation request"
          (.wrap "unable to build an adaptive card"
            (.mk "template: ChoiceMessageAdaptiveCard: cannot evaluate field Message in type webexbot.ChoiceMessage")))) ∧
    (okMessenger.OfferChoice yesNoChoiceMessage []).2 = [] ∧
    okMessenger.listenForChoice yesNoOptions [.ctxDone .contextCanceled] =
      .panicked "interface conversion: interface \x7b\x7d is nil, not string" :=
  Listen_cancellation_OfferChoice_divergence okMessenger indifferentListener
    [zeroEvent] .contextCanceled yesNoChoiceMessage yesNoOptions []
    (by
      intro e he
      rcases List.mem_cons.mp he with rfl | h
      · rfl
      · cases h)
    (by
      intro e he c hc
      rcases List.mem_cons.mp he with rfl | h
      · simp [indifferentListener] at hc
      · cases h)

/-- Helper: the options listener yields one of exactly three shapes:
irrelevant `(nil, nil, nil)`, hard decode error, or an offered option id as
the response — and never a clarification. -/
lemma newOptionsListener_cases (options : List ChoiceOption) (event : Event) :
    newOptionsListener options event = (.nil, none, none) ∨
    (∃ e, newOptionsListener options event = (.nil, none, some e)) ∨
    (∃ s, newOptionsListener options event = (.str s, none, none) ∧
      isOneOf s options = true) := by
  rcases hfa : fetchAttachmentAction event with ⟨aa, ok⟩
  rcases ok with _ | _
  · left
    simp [newOptionsListener, hfa]
  · rcases hfc : fetchUserChoice aa with e | s
    · right; left
      exact ⟨e, by simp [newOptionsListener, hfa, hfc]⟩
    · by_cases hone : isOneOf s options = true
      · right; right
        exact ⟨s, by simp [newOptionsListener, hfa, hfc, hone], hone⟩
      · left
        have hone2 : isOneOf s options = false := by
          simpa using hone
        simp [newOptionsListener, hfa, hfc, hone2]

/-- Helper: whatever response a `Listen` run with the options listener
returns is either nil or an offered option id. -/
lemma Listen_optionsListener_response (m : Messenger)
    (options : List ChoiceOption) :
    ∀ (schedule : List Arrival) (r : GoAny) (err : Option GoError),
    (m.Listen (newOptionsListener options) schedule).1 = .returns r err →
    r = .nil ∨ ∃ s, r = .str s ∧ isOneOf s options = true := by
  intro schedule
  induction schedule with
  | nil =>
    intro r err h
    simp [Messenger.Listen] at h
  | cons a rest ih =>
    intro r err h
    rcases a with event | e
    · rcases newOptionsListener_cases options event with hc | ⟨e2, hc⟩ | ⟨s, hc, hone⟩
      · simp only [Messenger.Listen, hc] at h
        exact ih r err h
      · simp only [Messenger.Listen, hc] at h
        left
        exact (ListenOutcome.returns.inj h).1.symm
      · simp only [Messenger.Listen, hc] at h
        rw [if_pos (by intro hfalse; cases hfalse)] at h
        right
        exact ⟨s, (ListenOutcome.returns.inj h).1.symm, hone⟩
    · simp only [Messenger.Listen] at h
      left
      exact (ListenOutcome.returns.inj h).1.symm

/-- C5 — OfferChoice validity, and the fate of undecodable submissions
(code bug at the propagation step): any id `listenForChoice` returns is one
of the offered ids — and `OfferChoice` as shipped never returns an id at
all, because its prompt send always fails on the template error; a
decodable submission carrying an unknown id is irrelevant — the options
listener yields `(nil, nil, nil)` and `Listen` keeps waiting; an
undecodable submission is a hard error that `Listen` returns, but
`listenForChoice` then panics on its unchecked type assertion instead of
propagating the error out of `OfferChoice`. -/
theorem OfferChoice_validity (m : Messenger) (options : List ChoiceOption)
    (message : ChoiceMessage) (schedule : List Arrival) :
    (∀ s, m.listenForChoice options schedule = .ok s →
      isOneOf s options = true) ∧
    (∀ s, (m.OfferChoice message schedule).1 ≠ .ok s) ∧
    (∀ event a s, fetchAttachmentAction event = (a, true) →
      fetchUserChoice a = .ok s → isOneOf s options = false →
      newOptionsListener options event = (.nil, none, none) ∧
      m.Listen (newOptionsListener options) [.fromChan event] = (.waiting, [])) ∧
    (∀ event a msg (tail : List Arrival),
      fetchAttachmentAction event = (a, true) →
      a.Inputs = .undecodable msg →
      (m.Listen (newOptionsListener options) (.fromChan event :: tail)).1 =
        .returns .nil
          (some (.wrap "unable to unmarshal the attachment action inputs" (.mk msg))) ∧
      m.listenForChoice options (.fromChan event :: tail) =
        .panicked "interface conversion: interface \x7b\x7d is nil, not string") := by
  refine ⟨?_, ?_, ?_, ?_⟩
  · intro s h
    rcases hl : (m.Listen (newOptionsListener options) schedule).1 with ⟨r, err⟩ | _
    · rcases Listen_optionsListener_response m options schedule r err hl
        with rfl | ⟨s2, rfl, hone⟩
      · simp [Messenger.listenForChoice, hl] at h
      · have : s2 = s := by
          simpa [Messenger.listenForChoice, hl] using h
        exact this ▸ hone
    · simp [Messenger.listenForChoice, hl] at h
  · intro s h
    simp [Messenger.OfferChoice, Messenger.sendChoiceMessage,
      Messenger.newChoiceMessageCreationRequest,
      choiceMessageAdaptiveCardTemplateExecute] at h
  · intro event a s hfa hfc hone
    have hl : newOptionsListener options event = (.nil, none, none) := by
      simp [newOptionsListener, hfa, hfc, hone]
    refine ⟨hl, ?_⟩
    simp only [Messenger.Listen, hl]
    simp [Messenger.Listen]
  · intro event a msg tail hfa hinp
    have hfc : fetchUserChoice a =
        .error (.wrap "unable to unmarshal the attachment action inputs" (.mk msg)) := by
      simp [fetchUserChoice, hinp]
    have hl : newOptionsListener options event = (.nil, none,
        some (.wrap "unable to unmarshal the attachment action inputs" (.mk msg))) := by
      simp [newOptionsListener, hfa, hfc]
    have hrun : m.Listen (newOptionsListener options) (.fromChan event :: tail) =
        (.returns .nil
          (some (.wrap "unable to unmarshal the attachment action inputs" (.mk msg))), []) := by
      simp only [Messenger.Listen, hl]
    exact ⟨by rw [hrun], by simp [Messenger.listenForChoice, hrun]⟩

/-- C5 witness: for the concrete yes/no options, an undecodable submit
event makes `Listen` return the unmarshal hard error while
`listenForChoice` panics on it. -/
theorem OfferChoice_validity_witness :
    (okMessenger.Listen (newOptionsListener yesNoOptions)
        [.fromChan malformedSubmitEvent]).1 =
      .returns .nil
        (some (.wrap "unable to unmarshal the attachment action inputs"
          (.mk "invalid character"))) ∧
    okMessenger.listenForChoice yesNoOptions [.fromChan malformedSubmitEvent] =
      .panicked "interface conversion: interface \x7b\x7d is nil, not string" :=
  (OfferChoice_validity okMessenger yesNoOptions yesNoChoiceMessage
    [.fromChan malformedSubmitEvent]).2.2.2 malformedSubmitEvent
    { zeroAttachmentAction with Inputs := .undecodable "invalid character" }
    "invalid character" [] rfl rfl

/-- C10 — Listen does not detect inbound-channel closure: a receive from
the closed, drained channel succeeds immediately with the zero `Event`,
which `Listen` hands to the listener exactly like a real event; if the
listener is indifferent to the zero event, `Listen` keeps looping for any
number of such receives and terminates only by context cancellation, and if
the listener yields a terminal outcome on the zero event, `Listen` returns
that outcome — it never terminates merely because the channel closed. -/
theorem Listen_closed_channel (m : Messenger) (listener : Listener)
    (c : EventChannel) (n : Nat) (cancelErr : GoError)
    (hclosed : c.closed = true) (hempty : c.buffer = []) :
    (c.recvReady = true ∧ c.recv = (zeroEvent, c)) ∧
    ((listener zeroEvent = (.nil, none, none)) →
      m.Listen listener (List.replicate n (.fromChan zeroEvent)) =
        (.waiting, []) ∧
      m.Listen listener
          (List.replicate n (.fromChan zeroEvent) ++ [.ctxDone cancelErr]) =
        (.returns .nil (some cancelErr), [])) ∧
    (listenerTerminal listener zeroEvent = true →
      m.Listen listener (List.replicate (n + 1) (.fromChan zeroEvent)) =
        (listenerOutcome listener zeroEvent, [])) := by
  refine ⟨⟨?_, ?_⟩, ?_, ?_⟩
  · simp [EventChannel.recvReady, hempty, hclosed]
  · simp [EventChannel.recv, hempty]
  · intro hind
    have hpre : ∀ e ∈ List.replicate n zeroEvent,
        listenerTerminal listener e = false := by
      intro e he
      rw [List.eq_of_mem_replicate he]
      simp [listenerTerminal, hind]
    have hsend : ∀ e ∈ List.replicate n zeroEvent, ∀ cm : Message,
        (listener e).2.1 = some cm → ∃ id, (m.Send cm).1 = .ok id := by
      intro e he cm hc
      rw [List.eq_of_mem_replicate he, hind] at hc
      cases hc
    have hcl : clarificationsOf listener (List.replicate n zeroEvent) = [] := by
      rw [clarificationsOf, List.filterMap_eq_nil_iff]
      intro e he
      rw [List.eq_of_mem_replicate he, hind]
    have hmap : (List.replicate n zeroEvent).map Arrival.fromChan =
        List.replicate n (.fromChan zeroEvent) := List.map_replicate ..
    constructor
    · have := Listen_nonterminal_run m listener (List.replicate n zeroEvent)
        [] hpre hsend
      rw [hmap] at this
      simpa [Messenger.Listen, hcl] using this
    · have := Listen_nonterminal_run m listener (List.replicate n zeroEvent)
        [.ctxDone cancelErr] hpre hsend
      rw [hmap] at this
      simpa [Messenger.Listen, hcl] using this
  · intro hterm
    rw [List.replicate_succ]
    exact Listen_terminal_head m listener zeroEvent
      (List.replicate n (.fromChan zeroEvent)) hterm

/-- C10 witness: for the concrete closed drained channel and an indifferent
listener, two closed-channel receives leave `Listen` waiting, and with a
final cancellation it returns the cancellation error. -/
theorem Listen_closed_channel_witness :
    (closedEventChannel.recvReady = true ∧
      closedEventChannel.recv = (zeroEvent, closedEventChannel)) ∧
    okMessenger.Listen indifferentListener
        (List.replicate 2 (.fromChan zeroEvent)) = (.waiting, []) ∧
    okMessenger.Listen indifferentListener
        (List.replicate 2 (.fromChan zeroEvent) ++ [.ctxDone .contextCanceled]) =
      (.returns .nil (some .contextCanceled), []) := by
  have h := Listen_closed_channel okMessenger indifferentListener
    closedEventChannel 2 .contextCanceled rfl rfl
  exact ⟨h.1, (h.2.1 rfl).1, (h.2.1 rfl).2⟩

/-- Helper: looking up the key just stored. -/
lemma lookupDialog_insertDialog_self (r : Registry) (k : dialogKey)
    (d : dialogState) : lookupDialog (insertDialog r k d) k = some d := by
  induction r with
  | nil => simp [insertDialog, lookupDialog]
  | cons p rest ih =>
    rcases p with ⟨k2, x⟩
    by_cases hk : k2 = k
    · subst hk
      simp [insertDialog, lookupDialog]
    · simp [insertDialog, lookupDialog, hk, ih]

/-- Helper: storing under one key leaves other keys' bindings unchanged. -/
lemma lookupDialog_insertDialog_ne (r : Registry) (k k2 : dialogKey)
    (d : dialogState) (h : k2 ≠ k) :
    lookupDialog (insertDialog r k d) k2 = lookupDialog r k2 := by
  induction r with
  | nil => simp [insertDialog, lookupDialog, Ne.symm h]
  | cons p rest ih =>
    rcases p with ⟨k3, x⟩
    by_cases hk : k3 = k
    · subst hk
      simp [insertDialog, lookupDialog, h, Ne.symm h]
    · simp [insertDialog, lookupDialog, hk, ih]

/-- Helper: after `startDialog` and a `send`-branch `pushEvent` of the same
event, the new entry's channel holds exactly that event. -/
lemma pushEvent_send_after_start (r : Registry) (event : Event) :
    lookupDialog
      (pushEvent (startDialog r event) ⟨event.InitiatorId, event.RoomId⟩
        event .send).1
      ⟨event.InitiatorId, event.RoomId⟩ = some ⟨false, [event], false⟩ := by
  have hfresh : lookupDialog (startDialog r event)
      ⟨event.InitiatorId, event.RoomId⟩ = some freshDialogState :=
    lookupDialog_insertDialog_self ..
  simp [pushEvent, hfresh, freshDialogState, lookupDialog_insertDialog_self]

/-- C9 — the trigger event is delivered to the new session: whenever an
event triggers a task (with or without an existing active session), the
controller, after starting the new dialog, pushes that same event into the
new dialog's inbound channel through the switch-case fallthrough; for the
fresh dialog the channel-send branch is ready (empty open channel of
capacity 16) and, as long as the 10 ms timer has not fired, it is the only
ready branch, so Go's `select` must take it. -/
theorem processEvent_delivers_trigger_event (r : Registry)
    (provider : Event → Option Nat) (event : Event)
    (h : (provider event).isSome = true) :
    lookupDialog (processEvent r provider event .send).1
        ⟨event.InitiatorId, event.RoomId⟩ = some ⟨false, [event], false⟩ ∧
    branchReady freshDialogState false .send = true ∧
    (∀ b, branchReady freshDialogState false b = true → b = .send) := by
  refine ⟨?_, rfl, ?_⟩
  · cases hact : isDialogActive r ⟨event.InitiatorId, event.RoomId⟩
    · have hred : processEvent r provider event .send =
          pushEvent (startDialog r event) ⟨event.InitiatorId, event.RoomId⟩
            event .send := by
        simp [processEvent, hact, h]
      rw [hred]
      exact pushEvent_send_after_start r event
    · have hred : processEvent r provider event .send =
          pushEvent (startDialog (stopDialog r ⟨event.InitiatorId, event.RoomId⟩)
            event) ⟨event.InitiatorId, event.RoomId⟩ event .send := by
        simp [processEvent, hact, h]
      rw [hred]
      exact pushEvent_send_after_start _ event
  · intro b hb
    rcases b with _ | _ | _
    · rfl
    · exact absurd hb (by decide)
    · exact absurd hb (by decide)

/-- C9 witness: on the empty registry, a triggering event ends up as the
single buffered event of the newly created dialog's channel. -/
theorem processEvent_delivers_trigger_event_witness :
    lookupDialog (processEvent [] alwaysTriggerProvider zeroEvent .send).1
        ⟨zeroEvent.InitiatorId, zeroEvent.RoomId⟩ =
      some ⟨false, [zeroEvent], false⟩ :=
  (processEvent_delivers_trigger_event [] alwaysTriggerProvider zeroEvent rfl).1

/-- C7 — bounded best-effort delivery: a non-triggering event addressed to
an active dialog is forwarded by `pushEvent` under a 10 ms timeout; if the
send branch fires the event is appended to the dialog's channel and nothing
is logged; if the dialog's context is done the event is silently dropped
(and the readiness of that branch means the context really is done); if the
timeout fires the event is dropped and the warning is logged. In every case
the controller returns no error, retries nothing, and no dialog's context
or channel is touched. -/
theorem pushEvent_bounded_best_effort (r : Registry)
    (provider : Event → Option Nat) (event : Event) (branch : PushBranch)
    (d : dialogState) (timerFired : Bool)
    (hprov : provider event = none)
    (hact : lookupDialog r ⟨event.InitiatorId, event.RoomId⟩ = some d)
    (hready : branchReady d timerFired branch = true) :
    (branch = .send →
      processEvent r provider event branch =
        (insertDialog r ⟨event.InitiatorId, event.RoomId⟩
          { d with queue := d.queue ++ [event] }, false)) ∧
    (branch = .dialogDone →
      processEvent r provider event branch = (r, false) ∧ d.ctxDone = true) ∧
    (branch = .timeout → processEvent r provider event branch = (r, true)) ∧
    (∀ k e, lookupDialog (processEvent r provider event branch).1 k = some e →
      ∃ e0, lookupDialog r k = some e0 ∧
        e.ctxDone = e0.ctxDone ∧ e.closed = e0.closed) ∧
    pushingTimeoutMilliseconds = 10 := by
  have hred : processEvent r provider event branch =
      pushEvent r ⟨event.InitiatorId, event.RoomId⟩ event branch := by
    simp [processEvent, isDialogActive, hact, hprov]
  refine ⟨?_, ?_, ?_, ?_, rfl⟩
  · intro hb
    subst hb
    simp [hred, pushEvent, hact]
  · intro hb
    subst hb
    refine ⟨by simp [hred, pushEvent, hact], ?_⟩
    simpa [branchReady] using hready
  · intro hb
    subst hb
    simp [hred, pushEvent, hact]
  · intro k e he
    rw [hred] at he
    rcases branch with _ | _ | _
    · simp only [pushEvent, hact] at he
      by_cases hk : k = (⟨event.InitiatorId, event.RoomId⟩ : dialogKey)
      · subst hk
        rw [lookupDialog_insertDialog_self] at he
        obtain rfl := Option.some.inj he
        exact ⟨d, hact, rfl, rfl⟩
      · rw [lookupDialog_insertDialog_ne _ _ _ _ hk] at he
        exact ⟨e, he, rfl, rfl⟩
    · simp only [pushEvent, hact] at he
      exact ⟨e, he, rfl, rfl⟩
    · simp only [pushEvent, hact] at he
      exact ⟨e, he, rfl, rfl⟩

/-- C7 witness: a non-triggering event for the one active dialog is
appended to that dialog's channel by the send branch, and the pushing
timeout constant is 10 ms. -/
theorem pushEvent_bounded_best_effort_witness :
    processEvent [(⟨"", ""⟩, freshDialogState)] neverTriggerProvider
        zeroEvent .send =
      (insertDialog [(⟨"", ""⟩, freshDialogState)] ⟨"", ""⟩
        { freshDialogState with queue := freshDialogState.queue ++ [zeroEvent] },
        false) ∧
    pushingTimeoutMilliseconds = 10 := by
  have h := pushEvent_bounded_best_effort [(⟨"", ""⟩, freshDialogState)]
    neverTriggerProvider zeroEvent .send freshDialogState false rfl rfl rfl
  exact ⟨h.1 rfl, h.2.2.2.2⟩

/-- C1 — evaluation of the stale-signal race at a concrete interleaving:
worker 0 finishes `Talk` and passes its deferred not-yet-cancelled check
(cancelling its own context); before the control loop receives its signal,
a new trigger event for the same key arrives, and `stopDialog` is a no-op
because generation 0's context is already done, so worker 1 and entry 1 are
created; the control loop then accepts worker 0's completion signal and
`processCompletionSignal` — which never compares the signalling worker with
the current entry — closes entry 1's channel and deletes it while worker 1
is still running. The signalling generation 0 and the deleted generation 1
differ, so the Router accepted a completion signal for a registry entry
that is not the one created for the signalling worker. -/
theorem staleSignal_deletes_newer_entry :
    StaleSignal.Trace StaleSignal.init
      [.triggerEvent, .finishTalk 0, .deferPassesCheck 0, .triggerEvent,
        .acceptSignal 0 1]
      ⟨none, 2, [(1, .running), (0, .sent)], [0], [1]⟩ ∧
    (0 : Nat) ≠ 1 := by
  refine ⟨?_, by decide⟩
  refine StaleSignal.Trace.cons (StaleSignal.Step.triggerInactive _ rfl) ?_
  refine StaleSignal.Trace.cons (StaleSignal.Step.finishTalk _ 0 (by decide)) ?_
  refine StaleSignal.Trace.cons
    (StaleSignal.Step.deferPassesCheck _ 0 (by decide) (by decide)) ?_
  refine StaleSignal.Trace.cons (StaleSignal.Step.triggerActive _ 0 rfl) ?_
  refine StaleSignal.Trace.cons (StaleSignal.Step.acceptSignal _ 0 1 (by decide) rfl) ?_
  exact StaleSignal.Trace.nil _

end Webexbot
